import Mathlib

/-!
Verification of the InkDAO edge-functions authentication-and-lifecycle core.

The definitions below are a shallow embedding of the TypeScript sources:
the Pinata private-file store is a list of records in listing order, time is
integer seconds, and the external cryptographic primitives (ethers
`verifyMessage`, viem `verifyTypedData`, WebCrypto HMAC-SHA256, the hono/jwt
signing primitive and the JS built-in `toLowerCase`) are abstracted as
explicit parameters or small models, while all control flow, comparisons and
store mutations follow the handlers line by line.
-/

namespace EdgeFunctions


/-- Model of the JS built-in `String.prototype.toLowerCase` on one character:
ASCII upper-case letters are shifted by 32, everything else is unchanged
(the addresses and CIDs handled by the code are ASCII). -/
def lowerChar (c : Char) : Char :=
  if 65 ≤ c.toNat ∧ c.toNat ≤ 90 then Char.ofNat (c.toNat + 32) else c

/-- Model of the JS built-in `String.prototype.toLowerCase`:
character-wise lowering. -/
def toLowerCase (s : String) : String :=
  ⟨s.data.map lowerChar⟩

/-- A Pinata private-file record, with the `owner` and `status` keyvalues
flattened into fields (the only keyvalues the core reads). -/
structure FileRecord where
  id : String
  cid : String
  name : String
  group_id : String
  owner : String
  status : String
deriving Repr, DecidableEq

/-- The Pinata private-file store, in listing order: the single source of
truth and sole synchronization point of the system. -/
abbrev PinataStore := List FileRecord

/-- Embedding of `pinata.files.private.list().cid(cid)`: the records carrying `cid`,
in listing order. -/
def listByCid (s : PinataStore) (cid : String) : List FileRecord :=
  s.filter (fun f => f.cid = cid)

/-- Embedding of `getFileByCid` from `netlify/utils/pinata.ts`: owner-scoped lookup.
Returns the first record listed under `cid` only when its `owner` keyvalue
equals the lowercased caller address and its status is not `"onchain"`;
in every other case (empty/missing cid, no record, owner mismatch, onchain)
it returns `none`. JS `!cid` is true exactly on the empty/absent string. -/
def getFileByCid (s : PinataStore) (cid : String) (authorizedAddress : String) :
    Option FileRecord :=
  if cid = "" then none
  else
    match listByCid s cid with
    | [] => none
    | file :: _ =>
      if file.owner ≠ toLowerCase authorizedAddress then none
      else if file.status = "onchain" then none
      else some file

/-- Embedding of `deleteFile` from `netlify/utils/pinata.ts`:
`pinata.files.private.delete([fileId])`. -/
def deleteFile (s : PinataStore) (fileId : String) : PinataStore :=
  s.filter (fun f => f.id ≠ fileId)

/-- Embedding of `pinata.files.private.update({id, keyvalues: {status}})`: rewrite the
status keyvalue of the record(s) with the given id. -/
def updateStatus (s : PinataStore) (fileId : String) (newStatus : String) :
    PinataStore :=
  s.map (fun f => if f.id = fileId then { f with status := newStatus } else f)

/-- The outcome of the terminal publish transition: the pending record was
marked onchain, or no matching pending record was found (already converged
or deleted), which the handlers treat as success, not as an error. -/
inductive WebhookOutcome where
  | applied
  | noopAlreadyProcessed
deriving Repr, DecidableEq

/-- The shared tail of both webhook handlers in the webhook edge function
(after transport authentication and event decoding): look up the still-pending
record by cid and lowercased author via `getFileByCid`; if none is found reply
200 success without touching the store; otherwise set its status keyvalue to
`"onchain"` and reply 200. -/
def applyOnchainTransition (s : PinataStore) (assetCid author : String) :
    PinataStore × Nat × WebhookOutcome :=
  match getFileByCid s assetCid (toLowerCase author) with
  | none => (s, 200, WebhookOutcome.noopAlreadyProcessed)
  | some file => (updateStatus s file.id "onchain", 200, WebhookOutcome.applied)

/-- Embedding of `validateAlchemySignature` from `shared.ts`: exact hex-string equality
against HMAC-SHA256 of the raw body under the signing key. `hmacSha256Hex`
abstracts the WebCrypto primitive (key, message ↦ lowercase hex digest). -/
def validateAlchemySignature (hmacSha256Hex : String → String → String)
    (body signature signingKey : String) : Bool :=
  signature = hmacSha256Hex signingKey body

/-- Embedding of `validateQuickNodeSignature` from `shared.ts`: exact hex-string equality
against HMAC-SHA256 of nonce ++ timestamp ++ raw body under the security
token. -/
def validateQuickNodeSignature (hmacSha256Hex : String → String → String)
    (body nonce timestamp signature securityToken : String) : Bool :=
  signature = hmacSha256Hex securityToken (nonce ++ timestamp ++ body)

/-- The channel-A (`/webhook/alchemy/publish`) handler. `decodeAssetData`
abstracts JSON parsing plus `decodeAlchemyWebhookAssetData` (ethers ABI log
decoding), returning the `(assetCid, author)` pair or `none`; a JS parse
throw and a `null` decode both end in the 400 reply. A missing or empty
signature header is falsy in JS and replies 401. -/
def alchemyPublishHandler (s : PinataStore) (hmacSha256Hex : String → String → String)
    (signingKey : String) (signatureHeader : Option String) (rawBody : String)
    (decodeAssetData : String → Option (String × String)) :
    PinataStore × Nat × Option WebhookOutcome :=
  match signatureHeader with
  | none => (s, 401, none)
  | some signature =>
    if signature = "" then (s, 401, none)
    else if validateAlchemySignature hmacSha256Hex rawBody signature signingKey then
      match decodeAssetData rawBody with
      | none => (s, 400, none)
      | some (assetCid, author) =>
        let r := applyOnchainTransition s assetCid author
        (r.1, r.2.1, some r.2.2)
    else (s, 401, none)

/-- The channel-B (`/webhook/quicknode/publish`) handler. JS checks
`!nonce || !timestamp || !signature`, so a missing header and a present but
empty header are both 401 authentication failures, before the body is read. -/
def quickNodePublishHandler (s : PinataStore) (hmacSha256Hex : String → String → String)
    (securityToken : String)
    (nonceHeader timestampHeader signatureHeader : Option String)
    (rawBody : String) (decodeAssetData : String → Option (String × String)) :
    PinataStore × Nat × Option WebhookOutcome :=
  let nonce := nonceHeader.getD ""
  let timestamp := timestampHeader.getD ""
  let signature := signatureHeader.getD ""
  if nonce = "" ∨ timestamp = "" ∨ signature = "" then (s, 401, none)
  else if validateQuickNodeSignature hmacSha256Hex rawBody nonce timestamp signature
      securityToken then
    match decodeAssetData rawBody with
    | none => (s, 400, none)
    | some (assetCid, author) =>
      let r := applyOnchainTransition s assetCid author
      (r.1, r.2.1, some r.2.2)
  else (s, 401, none)

/-- Embedding of `authenticateSignature` from `netlify/utils/shared.ts` (used by the login
route). `recoverAddress` abstracts ethers `verifyMessage` (`none` models a
throw on a malformed signature). `extractIssuedAt` abstracts the
`Issued At: (.+)` regex followed by `new Date(...).getTime()/1000`: the outer
`none` models a failed regex match (the code returns false there), while
`some none` models a matched but unparsable date — its `getTime` is NaN, so
`timeDiff` is NaN, every freshness comparison evaluates to false and the
check is skipped; `some (some t)` is a parsed timestamp of `t` whole
seconds. The freshness window is asymmetric: reject when
`now - issuedAt > 10` or `now - issuedAt < -5`. -/
def authenticateSignatureShared (recoverAddress : String → String → Option String)
    (extractIssuedAt : String → Option (Option Int)) (now : Int)
    (salt signature address : String) : Bool :=
  if salt = "" ∨ address = "" ∨ signature = "" then false
  else
    match extractIssuedAt salt with
    | none => false
    | some parsedIssuedAt =>
      let freshnessRejected : Bool :=
        match parsedIssuedAt with
        | none => false
        | some issuedAt => now - issuedAt > 10 ∨ now - issuedAt < -5
      if freshnessRejected then false
      else
        match recoverAddress salt signature with
        | none => false
        | some recovered => toLowerCase recovered = toLowerCase address

/-- The local `authenticateSignature` inside `edge-functions/auth.ts`:
identical shape (including the skipped check on a NaN timestamp), but the
only freshness comparison is `now - issuedAt > 60` — there is no lower
bound, so a future `issuedAt` is never rejected. -/
def authenticateSignatureLogin (recoverAddress : String → String → Option String)
    (extractIssuedAt : String → Option (Option Int)) (now : Int)
    (salt signature address : String) : Bool :=
  if salt = "" ∨ address = "" ∨ signature = "" then false
  else
    match extractIssuedAt salt with
    | none => false
    | some parsedIssuedAt =>
      let freshnessRejected : Bool :=
        match parsedIssuedAt with
        | none => false
        | some issuedAt => now - issuedAt > 60
      if freshnessRejected then false
      else
        match recoverAddress salt signature with
        | none => false
        | some recovered => toLowerCase recovered = toLowerCase address

/-- The claims of a session token: `{address, iat, exp}` as built by
`generateJWT` in `shared.ts`. -/
structure JwtPayload where
  address : String
  iat : Int
  exp : Int
deriving Repr, DecidableEq

/-- A signed session token: its payload plus the secret it was signed with
(modelling the HMAC signature of the JWT). -/
structure Jwt where
  payload : JwtPayload
  signedWith : String
deriving Repr, DecidableEq

/-- Modelled from the spec: the hono/jwt `verify` primitive is an external
library, not part of this repository. Per the spec the token is "valid for a
fixed 2-hour window from issuance" (the window being the `exp` claim written
by `generateJWT`) and verification "fails closed (returns null) on signature
mismatch, expiry, or malformed structure". -/
def jwtVerifyPrimitive (token : Jwt) (secret : String) (now : Int) :
    Option JwtPayload :=
  if token.signedWith = secret ∧ now ≤ token.payload.exp then some token.payload
  else none

/-- Embedding of `generateJWT` from `shared.ts`: lowercased address, `iat = now`,
`exp = now + 2 * 60 * 60`, signed with the process-wide secret. -/
def generateJWT (address : String) (now : Int) (secret : String) : Jwt :=
  { payload :=
      { address := toLowerCase address
        iat := now
        exp := now + 2 * 60 * 60 }
    signedWith := secret }

/-- Embedding of `verifyJWT` from `shared.ts`: run the primitive, then surface only the
`address` claim; any verification error yields `none`. -/
def verifyJWT (token : Jwt) (secret : String) (now : Int) : Option String :=
  match jwtVerifyPrimitive token secret now with
  | none => none
  | some payload => some payload.address

/-- The `/pendingFilesByOwner` handler in `files.ts`: bearer token required
(401 when absent or invalid), `owner` query parameter required (400 when
absent or empty after lowercasing), then the pending files of the requested
owner are listed (limit 12). `bearerToken = none` covers both a missing
Authorization header and one without the Bearer prefix. -/
def pendingFilesByOwner (s : PinataStore) (secret : String) (now : Int)
    (bearerToken : Option Jwt) (ownerParam : Option String) :
    Nat × Option (List FileRecord) :=
  match bearerToken with
  | none => (401, none)
  | some token =>
    match verifyJWT token secret now with
    | none => (401, none)
    | some _address =>
      match ownerParam with
      | none => (400, none)
      | some ownerRaw =>
        let requestedOwner := toLowerCase ownerRaw
        if requestedOwner = "" then (400, none)
        else
          (200, some ((s.filter
            (fun f => f.owner = requestedOwner ∧ f.status = "pending")).take 12))

/-- The `/fileByCid` handler in `files.ts`: bearer token required, then the
owner-scoped lookup keyed by the token identity; `none` replies 404. -/
def fileByCidHandler (s : PinataStore) (secret : String) (now : Int)
    (bearerToken : Option Jwt) (cid : String) : Nat × Option FileRecord :=
  match bearerToken with
  | none => (401, none)
  | some token =>
    match verifyJWT token secret now with
    | none => (401, none)
    | some address =>
      match getFileByCid s cid (toLowerCase address) with
      | none => (404, none)
      | some file => (200, some file)

/-- The `/update/file` handler in `files.ts`. `verifiedTypedData` is the
result of the viem `verifyTypedData` call (external crypto primitive);
`msgTimestamp` is `parseInt(salt.message.timestamp)` (parseable case) and
`now` is `Date.now()/1000`, in whole seconds; `freshId`/`freshCid` are the
store-assigned identifiers of the new upload. On success the old record is
deleted and a new one is created in the same group with the nonce-derived
name, the lowercased caller as owner and status pending. -/
def updateFileHandler (s : PinataStore) (verifiedTypedData : Bool)
    (now msgTimestamp : Int)
    (address nonce content cid freshId freshCid : String) :
    PinataStore × Nat × Option FileRecord :=
  if !verifiedTypedData then (s, 401, none)
  else if now - msgTimestamp > 60 then (s, 401, none)
  else
    match getFileByCid s cid (toLowerCase address) with
    | none => (s, 404, none)
    | some file =>
      if file.name = nonce then (s, 400, none)
      else
        let newFile : FileRecord :=
          { id := freshId
            cid := freshCid
            name := nonce
            group_id := file.group_id
            owner := toLowerCase address
            status := "pending" }
        (newFile :: deleteFile s file.id, 200, some newFile)

/-- The `/delete/file` handler in `files.ts`. `postCidToTokenId` abstracts
the marketplace chain read performed first: a nonzero token id replies 400
before any signature check. Then typed-data authentication, the 60 s
timestamp check, the owner-scoped lookup, and the duplicate-name guard,
before the record is removed. -/
def deleteFileHandler (s : PinataStore) (postCidToTokenId : String → Int)
    (verifiedTypedData : Bool) (now msgTimestamp : Int)
    (address nonce cid : String) :
    PinataStore × Nat × Option FileRecord :=
  if postCidToTokenId cid ≠ 0 then (s, 400, none)
  else if !verifiedTypedData then (s, 401, none)
  else if now - msgTimestamp > 60 then (s, 401, none)
  else
    match getFileByCid s cid (toLowerCase address) with
    | none => (s, 404, none)
    | some file =>
      if file.name = nonce then (s, 400, none)
      else (deleteFile s file.id, 200, some file)

/-- A record already marked onchain, owned by 0xaaa, used for concrete
instances. -/
def onchainRecord : FileRecord :=
  { id := "file-1"
    cid := "QmOnchain"
    name := "nonce-old"
    group_id := "grp-1"
    owner := "0xaaa"
    status := "onchain" }

/-- A one-record store whose record is already onchain. -/
def onchainStore : PinataStore := [onchainRecord]

/-- A still-pending record owned by 0xabc, used for concrete instances. -/
def pendingRecord : FileRecord :=
  { id := "file-7"
    cid := "QmPending"
    name := "nonce-7"
    group_id := "grp-7"
    owner := "0xabc"
    status := "pending" }

/-- A one-record store whose record is still pending. -/
def pendingStore : PinataStore := [pendingRecord]

/-- A concrete stand-in for the HMAC-SHA256 hex oracle, used only to build
closed instances. -/
def hmacDemo (key message : String) : String :=
  key ++ ":" ++ message

theorem toNat_ofNat_of_small {n : Nat} (h : n < 55296) : (Char.ofNat n).toNat = n := by
  unfold Char.ofNat
  rw [dif_pos (Or.inl h)]
  rfl

theorem lowerChar_lowerChar (c : Char) : lowerChar (lowerChar c) = lowerChar c := by
  by_cases h : 65 ≤ c.toNat ∧ c.toNat ≤ 90
  · have h1 : lowerChar c = Char.ofNat (c.toNat + 32) := by
      unfold lowerChar
      rw [if_pos h]
    have h2 : (Char.ofNat (c.toNat + 32)).toNat = c.toNat + 32 :=
      toNat_ofNat_of_small (by omega)
    rw [h1]
    unfold lowerChar
    rw [h2, if_neg (by omega)]
  · have h1 : lowerChar c = c := by
      unfold lowerChar
      rw [if_neg h]
    rw [h1, h1]

theorem toLowerCase_toLowerCase (s : String) :
    toLowerCase (toLowerCase s) = toLowerCase s := by
  unfold toLowerCase
  simp [List.map_map, Function.comp_def, lowerChar_lowerChar]

theorem listByCid_updateStatus (s : PinataStore) (fileId newStatus cid : String) :
    listByCid (updateStatus s fileId newStatus) cid
      = (listByCid s cid).map
          (fun f => if f.id = fileId then { f with status := newStatus } else f) := by
  induction s with
  | nil => rfl
  | cons f rest ih =>
    unfold listByCid updateStatus at *
    by_cases h : f.cid = cid
    · by_cases hid : f.id = fileId
      · simp [h, hid, ih]
      · simp [h, hid, ih]
    · by_cases hid : f.id = fileId
      · simp [h, hid, ih]
      · simp [h, hid, ih]

/-- Characterization of the owner-scoped lookup: it yields a record exactly
when the cid is non-empty, the record is the first one listed under the cid,
its owner keyvalue is the lowercased caller address, and it is not onchain. -/
theorem getFileByCid_eq_some_iff (s : PinataStore) (cid a : String) (f : FileRecord) :
    getFileByCid s cid a = some f ↔
      cid ≠ "" ∧ (listByCid s cid).head? = some f
        ∧ f.owner = toLowerCase a ∧ f.status ≠ "onchain" := by
  unfold getFileByCid
  by_cases hc : cid = ""
  · simp [hc]
  · rw [if_neg hc]
    cases hl : listByCid s cid with
    | nil => simp [hc]
    | cons g rest =>
      by_cases how : g.owner = toLowerCase a
      · by_cases hst : g.status = "onchain"
        · simp [how, hst, hc]
          intro h
          rw [← h]
          simp [hst]
        · simp [how, hst, hc]
          intro h
          rw [← h]
          exact ⟨how, hst⟩
      · simp [how, hc]
        intro h
        rw [← h]
        intro how2
        exact absurd how2 how

/-- Marking the record found by the owner-scoped lookup as onchain makes the
same lookup come back empty: the head of the cid listing keeps its position
and owner but now carries the terminal status. -/
theorem getFileByCid_updateStatus_self (s : PinataStore) (cid a : String)
    (f : FileRecord) (hf : getFileByCid s cid a = some f) :
    getFileByCid (updateStatus s f.id "onchain") cid a = none := by
  obtain ⟨hc, hhead, how, _⟩ := (getFileByCid_eq_some_iff s cid a f).mp hf
  cases hl : listByCid s cid with
  | nil =>
    rw [hl] at hhead
    simp at hhead
  | cons g rest =>
    rw [hl] at hhead
    simp at hhead
    subst hhead
    unfold getFileByCid
    rw [if_neg hc, listByCid_updateStatus, hl]
    simp only [List.map_cons]
    simp [how]

/-- When the owner-scoped lookup finds nothing, the webhook transition is the
no-op success: store untouched, HTTP 200. -/
theorem applyOnchainTransition_of_none {s : PinataStore} {cid author : String}
    (h : getFileByCid s cid (toLowerCase author) = none) :
    applyOnchainTransition s cid author
      = (s, 200, WebhookOutcome.noopAlreadyProcessed) := by
  unfold applyOnchainTransition
  rw [h]

/-- C1: applying the webhook publish transition twice with the same
`(contentAddress, authorAddress)` pair yields the same final store state as
applying it once; the second application finds no pending record matching the
pair and replies with the no-op success (HTTP 200), not a failure. -/
theorem applyOnchainTransition_idempotent (s : PinataStore)
    (assetCid author : String) :
    applyOnchainTransition (applyOnchainTransition s assetCid author).1
        assetCid author
      = ((applyOnchainTransition s assetCid author).1, 200,
          WebhookOutcome.noopAlreadyProcessed)
    ∧ getFileByCid (applyOnchainTransition s assetCid author).1 assetCid
        (toLowerCase author) = none := by
  have key : getFileByCid (applyOnchainTransition s assetCid author).1 assetCid
      (toLowerCase author) = none := by
    cases hg : getFileByCid s assetCid (toLowerCase author) with
    | none =>
      unfold applyOnchainTransition
      rw [hg]
      exact hg
    | some f =>
      unfold applyOnchainTransition
      rw [hg]
      exact getFileByCid_updateStatus_self s assetCid (toLowerCase author) f hg
  exact ⟨applyOnchainTransition_of_none key, key⟩

/-- C2 counterexample: with a recovery oracle that reports the claimed
signer, the login-route plain-message authenticate accepts at clock time 0 a
message whose embedded Issued At timestamp lies 1000000 seconds in the
future — far beyond both freshness windows appearing in the repository
(10 s and 60 s) — and the shared variant accepts, at any clock time, a
message whose matched Issued At text does not parse (its NaN timeDiff skips
the freshness comparisons), so acceptance is not equivalent to a
recovered-address match plus `|now - issuedAt| ≤ window`. -/
theorem authenticateSignatureLogin_accepts_far_future :
    authenticateSignatureLogin (fun _ _ => some "0xAA")
        (fun _ => some (some 1000000)) 0 "msg" "sig" "0xaa" = true
    ∧ (1000000 : Int) - 0 > 60
    ∧ authenticateSignatureShared (fun _ _ => some "0xAA")
        (fun _ => some none) 987654321 "msg" "sig" "0xaa" = true := by
  refine ⟨by decide, by decide, by decide⟩

/-- C2 (amended): the shared plain-message authenticate succeeds iff the
fields are present, the Issued At regex matches, the freshness window holds
whenever the matched timestamp parses — the asymmetric
`-5 ≤ now - issuedAt ≤ 10`, skipped entirely when the date is unparsable
(NaN comparisons) — and the recovered address equals the claimed address
case-insensitively; the login-local variant in `auth.ts` is the same with
the sole parsed-timestamp condition `now - issuedAt ≤ 60`, so it never
rejects a future timestamp, and both accept an unparsable timestamp. -/
theorem authenticateSignature_characterization :
    (∀ (recoverAddress : String → String → Option String)
        (extractIssuedAt : String → Option (Option Int)) (now : Int)
        (salt signature address : String),
      authenticateSignatureShared recoverAddress extractIssuedAt now
          salt signature address = true
        ↔ ¬(salt = "" ∨ address = "" ∨ signature = "")
          ∧ ∃ parsedIssuedAt, extractIssuedAt salt = some parsedIssuedAt
            ∧ (∀ issuedAt, parsedIssuedAt = some issuedAt →
                -5 ≤ now - issuedAt ∧ now - issuedAt ≤ 10)
            ∧ ∃ recovered, recoverAddress salt signature = some recovered
              ∧ toLowerCase recovered = toLowerCase address)
    ∧ (∀ (recoverAddress : String → String → Option String)
        (extractIssuedAt : String → Option (Option Int)) (now : Int)
        (salt signature address : String),
      authenticateSignatureLogin recoverAddress extractIssuedAt now
          salt signature address = true
        ↔ ¬(salt = "" ∨ address = "" ∨ signature = "")
          ∧ ∃ parsedIssuedAt, extractIssuedAt salt = some parsedIssuedAt
            ∧ (∀ issuedAt, parsedIssuedAt = some issuedAt →
                now - issuedAt ≤ 60)
            ∧ ∃ recovered, recoverAddress salt signature = some recovered
              ∧ toLowerCase recovered = toLowerCase address) := by
  constructor
  · intro recoverAddress extractIssuedAt now salt signature address
    unfold authenticateSignatureShared
    by_cases h1 : salt = "" ∨ address = "" ∨ signature = ""
    · simp [h1]
    · rw [if_neg h1]
      cases hext : extractIssuedAt salt with
      | none => simp [hext, h1]
      | some parsedIssuedAt =>
        cases parsedIssuedAt with
        | none =>
          cases hrec : recoverAddress salt signature with
          | none => simp [hrec, h1]
          | some recovered => simp [hrec, h1, decide_eq_true_iff]
        | some issuedAt =>
          by_cases ht : now - issuedAt > 10 ∨ now - issuedAt < -5
          · simp [ht, h1]
            intro hb1 hb2
            omega
          · simp only [ht, decide_false_eq_false]
            cases hrec : recoverAddress salt signature with
            | none => simp [hrec, h1]
            | some recovered =>
              simp [hrec, h1, decide_eq_true_iff]
              intro _
              omega
  · intro recoverAddress extractIssuedAt now salt signature address
    unfold authenticateSignatureLogin
    by_cases h1 : salt = "" ∨ address = "" ∨ signature = ""
    · simp [h1]
    · rw [if_neg h1]
      cases hext : extractIssuedAt salt with
      | none => simp [hext, h1]
      | some parsedIssuedAt =>
        cases parsedIssuedAt with
        | none =>
          cases hrec : recoverAddress salt signature with
          | none => simp [hrec, h1]
          | some recovered => simp [hrec, h1, decide_eq_true_iff]
        | some issuedAt =>
          by_cases ht : now - issuedAt > 60
          · simp [ht, h1]
            intro hb1
            omega
          · simp only [ht, decide_false_eq_false]
            cases hrec : recoverAddress salt signature with
            | none => simp [hrec, h1]
            | some recovered =>
              simp [hrec, h1, decide_eq_true_iff]
              intro _
              omega

/-- C3 counterexample: with a fully valid signature and fresh timestamp, an
update-draft targeting the record whose status is onchain replies 404
NotFound, not the claimed 400 Conflict: the owner-scoped lookup hides onchain
records, so the handler cannot tell them from absent ones. -/
theorem updateFile_onchain_replies_404 :
    updateFileHandler onchainStore true 0 0 "0xAAA" "nonce-new" "body"
        "QmOnchain" "file-2" "QmNew"
      = (onchainStore, 404, none)
    ∧ (updateFileHandler onchainStore true 0 0 "0xAAA" "nonce-new" "body"
        "QmOnchain" "file-2" "QmNew").2.1 ≠ 400 := by
  constructor
  · decide
  · decide

/-- C3 (amended): update-draft and delete-draft targeting a record whose
status is onchain never succeed and never change the store, but the failure
is not a uniform 400 Conflict: with a valid signature and fresh timestamp,
update fails 404 NotFound (the owner-scoped lookup returns null for onchain
records), and delete fails 400 only when the on-chain registry maps the cid
to a nonzero token id, otherwise 404. -/
theorem update_delete_onchain_never_succeed
    (s : PinataStore) (postCidToTokenId : String → Int) (now msgTimestamp : Int)
    (address nonce content cid freshId freshCid : String)
    (f : FileRecord) (rest : List FileRecord)
    (hhead : listByCid s cid = f :: rest) (hst : f.status = "onchain")
    (hts : now - msgTimestamp ≤ 60) :
    updateFileHandler s true now msgTimestamp address nonce content cid
        freshId freshCid
      = (s, 404, none)
    ∧ deleteFileHandler s postCidToTokenId true now msgTimestamp address nonce cid
      = (s, if postCidToTokenId cid ≠ 0 then 400 else 404, none) := by
  have hts' : ¬ now - msgTimestamp > 60 := by omega
  have hnone : ∀ a, getFileByCid s cid a = none := by
    intro a
    unfold getFileByCid
    by_cases hc : cid = ""
    · rw [if_pos hc]
    · rw [if_neg hc, hhead]
      by_cases how : f.owner ≠ toLowerCase a
      · simp [how]
      · simp [how, hst]
  constructor
  · unfold updateFileHandler
    simp [hts', hnone]
  · unfold deleteFileHandler
    by_cases hp : postCidToTokenId cid ≠ 0
    · simp [hp]
    · simp [hp, hts', hnone]

/-- Witness for the amended C3 at a concrete store, chain map and inputs. -/
theorem update_delete_onchain_never_succeed_witness :
    updateFileHandler onchainStore true 3 0 "0xBBB" "n" "b" "QmOnchain" "f2" "Qm2"
      = (onchainStore, 404, none)
    ∧ deleteFileHandler onchainStore (fun _ => 1) true 3 0 "0xBBB" "n" "QmOnchain"
      = (onchainStore, if (fun _ => (1 : Int)) "QmOnchain" ≠ 0 then 400 else 404, none) :=
  update_delete_onchain_never_succeed onchainStore (fun _ => (1 : Int)) 3 0
    "0xBBB" "n" "b" "QmOnchain" "f2" "Qm2" onchainRecord []
    (by decide) (by decide) (by decide)

/-- C4 counterexample: a token issued for 0xAAA is accepted for a query with
owner 0xBBB: the handler replies 200 with the list, not 403, although the
token identity differs from the requested owner. -/
theorem pendingFilesByOwner_foreign_owner_200 :
    pendingFilesByOwner [] "secret" 10 (some (generateJWT "0xAAA" 0 "secret"))
        (some "0xBBB")
      = (200, some [])
    ∧ (generateJWT "0xAAA" 0 "secret").payload.address ≠ toLowerCase "0xBBB" := by
  constructor
  · decide
  · decide

/-- C4 (amended): the pending-by-owner endpoint requires a valid bearer token
(else 401) and a non-empty owner parameter (else 400), but never compares the
owner parameter to the token identity: every valid token receives the
requested pending list of that owner with 200, and the handler has no 403 reply at
all. -/
theorem pendingFilesByOwner_no_identity_check :
    (∀ (s : PinataStore) (secret : String) (now : Int) (token : Jwt)
        (ownerRaw a : String),
      verifyJWT token secret now = some a → toLowerCase ownerRaw ≠ "" →
      pendingFilesByOwner s secret now (some token) (some ownerRaw)
        = (200, some ((s.filter
            (fun f => f.owner = toLowerCase ownerRaw ∧ f.status = "pending")).take 12)))
    ∧ (∀ (s : PinataStore) (secret : String) (now : Int)
        (bearerToken : Option Jwt) (ownerParam : Option String),
      (pendingFilesByOwner s secret now bearerToken ownerParam).1 ≠ 403) := by
  constructor
  · intro s secret now token ownerRaw a hv ho
    unfold pendingFilesByOwner
    simp [hv, ho]
  · intro s secret now bearerToken ownerParam
    unfold pendingFilesByOwner
    cases bearerToken with
    | none => simp
    | some token =>
      cases hv : verifyJWT token secret now with
      | none => simp [hv]
      | some a =>
        cases ownerParam with
        | none => simp [hv]
        | some ownerRaw =>
          by_cases ho : toLowerCase ownerRaw = ""
          · simp [hv, ho]
          · simp [hv, ho]

/-- Witness for the amended C4: a concrete valid token for 0xCCC lists the
pending files of 0xDDD with 200. -/
theorem pendingFilesByOwner_no_identity_check_witness :
    pendingFilesByOwner [] "k" 5 (some (generateJWT "0xCCC" 0 "k")) (some "0xDDD")
      = (200, some ((([] : PinataStore).filter
          (fun f => f.owner = toLowerCase "0xDDD" ∧ f.status = "pending")).take 12)) :=
  pendingFilesByOwner_no_identity_check.1 [] "k" 5 (generateJWT "0xCCC" 0 "k")
    "0xDDD" "0xccc" (by decide) (by decide)

/-- C5: a mutation whose nonce-derived name equals the existing name of the
target record is rejected with 400 and the store is left unchanged, both for
update-draft and for delete-draft (in the state where the guard is reached:
valid signature, fresh timestamp, cid not minted on chain, record found by
the owner-scoped lookup). -/
theorem duplicate_name_rejected
    (s : PinataStore) (postCidToTokenId : String → Int) (now msgTimestamp : Int)
    (address nonce content cid freshId freshCid : String) (f : FileRecord)
    (hfind : getFileByCid s cid (toLowerCase address) = some f)
    (hname : f.name = nonce)
    (hts : now - msgTimestamp ≤ 60)
    (hchain : postCidToTokenId cid = 0) :
    updateFileHandler s true now msgTimestamp address nonce content cid
        freshId freshCid
      = (s, 400, none)
    ∧ deleteFileHandler s postCidToTokenId true now msgTimestamp address nonce cid
      = (s, 400, none) := by
  have hts' : ¬ now - msgTimestamp > 60 := by omega
  constructor
  · unfold updateFileHandler
    simp [hts', hfind, hname]
  · unfold deleteFileHandler
    simp [hchain, hts', hfind, hname]

/-- Witness for C5: replaying the nonce that created the pending record is
rejected 400 by both mutation endpoints, with the store unchanged. -/
theorem duplicate_name_rejected_witness :
    updateFileHandler pendingStore true 1 0 "0xABC" "nonce-7" "body"
        "QmPending" "f9" "Qm9"
      = (pendingStore, 400, none)
    ∧ deleteFileHandler pendingStore (fun _ => 0) true 1 0 "0xABC" "nonce-7"
        "QmPending"
      = (pendingStore, 400, none) :=
  duplicate_name_rejected pendingStore (fun _ => 0) 1 0 "0xABC" "nonce-7"
    "body" "QmPending" "f9" "Qm9" pendingRecord
    (by decide) (by decide) (by decide) (by decide)

/-- C6 counterexample: the session token carries exp = issuance + 7200 s, so
3601 seconds after issuance it still verifies, and the pending-files call
(owner written in a different case than at issuance) replies 200, not the
claimed 401. -/
theorem pendingFilesByOwner_3601s_still_valid :
    pendingFilesByOwner [] "secret" 3601
        (some (generateJWT "0xABCD" 0 "secret")) (some "0xabcd")
      = (200, some [])
    ∧ verifyJWT (generateJWT "0xABCD" 0 "secret") "secret" 3601 = some "0xabcd" := by
  constructor
  · decide
  · decide

/-- C6 (amended): the advertised 2-hour lifetime is 7200 seconds: a
pending-files call strictly more than 7200 seconds after issuance fails 401
by expiry (for any owner parameter), while 3601 seconds is still within the
window. -/
theorem token_expiry_window
    (s : PinataStore) (secret address : String) (issuedAt now : Int)
    (ownerParam : Option String)
    (hlate : now - issuedAt > 7200) :
    pendingFilesByOwner s secret now
        (some (generateJWT address issuedAt secret)) ownerParam
      = (401, none) := by
  have hv : verifyJWT (generateJWT address issuedAt secret) secret now = none := by
    unfold verifyJWT jwtVerifyPrimitive generateJWT
    rw [if_neg]
    rintro ⟨-, h⟩
    simp at h
    omega
  unfold pendingFilesByOwner
  simp [hv]

/-- Witness for the amended C6: 7201 seconds after issuance the call is
rejected 401. -/
theorem token_expiry_window_witness :
    pendingFilesByOwner [] "secret" 7201
        (some (generateJWT "0xABCD" 0 "secret")) (some "0xabcd")
      = (401, none) :=
  token_expiry_window [] "secret" "0xABCD" 0 7201 (some "0xabcd") (by decide)

/-- The webhook publish transition always replies HTTP 200, whether it
applied the terminal transition or found nothing to do. -/
theorem applyOnchainTransition_status (s : PinataStore) (assetCid author : String) :
    (applyOnchainTransition s assetCid author).2.1 = 200 := by
  unfold applyOnchainTransition
  cases getFileByCid s assetCid (toLowerCase author) <;> rfl

/-- C7 counterexample: an authenticated, decodable channel-A delivery whose
`(contentAddress, authorAddress)` pair matches no record in the (empty) store
replies 200 success (the no-op outcome), not the claimed 404. -/
theorem alchemyWebhook_unknown_file_200 :
    alchemyPublishHandler [] hmacDemo "key" (some (hmacDemo "key" "body")) "body"
        (fun _ => some ("Qm123", "0xaaa"))
      = ([], 200, some WebhookOutcome.noopAlreadyProcessed)
    ∧ getFileByCid [] "Qm123" (toLowerCase "0xaaa") = none := by
  constructor
  · decide
  · decide

/-- C7 (amended): the channel-A handler treats file-not-found as the
idempotent-safe success: with a valid signature and a decodable event whose
pair matches no record it replies 200 and leaves the store untouched, and no
input at all makes it reply 404. -/
theorem alchemyWebhook_not_found_is_noop :
    (∀ (s : PinataStore) (hmacSha256Hex : String → String → String)
        (signingKey rawBody : String)
        (decodeAssetData : String → Option (String × String))
        (assetCid author : String),
      hmacSha256Hex signingKey rawBody ≠ "" →
      decodeAssetData rawBody = some (assetCid, author) →
      getFileByCid s assetCid (toLowerCase author) = none →
      alchemyPublishHandler s hmacSha256Hex signingKey
          (some (hmacSha256Hex signingKey rawBody)) rawBody decodeAssetData
        = (s, 200, some WebhookOutcome.noopAlreadyProcessed))
    ∧ (∀ (s : PinataStore) (hmacSha256Hex : String → String → String)
        (signingKey : String) (signatureHeader : Option String)
        (rawBody : String) (decodeAssetData : String → Option (String × String)),
      (alchemyPublishHandler s hmacSha256Hex signingKey signatureHeader rawBody
          decodeAssetData).2.1 ≠ 404) := by
  constructor
  · intro s hmacSha256Hex signingKey rawBody decodeAssetData assetCid author
      hsig hdec hnone
    unfold alchemyPublishHandler validateAlchemySignature
    simp [hsig, hdec, applyOnchainTransition_of_none hnone]
  · intro s hmacSha256Hex signingKey signatureHeader rawBody decodeAssetData
    unfold alchemyPublishHandler
    cases signatureHeader with
    | none => simp
    | some signature =>
      by_cases hs : signature = ""
      · simp [hs]
      · by_cases hv : validateAlchemySignature hmacSha256Hex rawBody signature
            signingKey = true
        · cases hd : decodeAssetData rawBody with
          | none => simp [hs, hv, hd]
          | some pair =>
            obtain ⟨assetCid, author⟩ := pair
            simp [hs, hv, hd, applyOnchainTransition_status]
        · simp [hs, hv]

/-- Witness for the amended C7 at a concrete store and oracles. -/
theorem alchemyWebhook_not_found_is_noop_witness :
    alchemyPublishHandler onchainStore hmacDemo "k"
        (some (hmacDemo "k" "payload")) "payload"
        (fun _ => some ("QmGone", "0xeee"))
      = (onchainStore, 200, some WebhookOutcome.noopAlreadyProcessed) :=
  alchemyWebhook_not_found_is_noop.1 onchainStore hmacDemo "k" "payload"
    (fun _ => some ("QmGone", "0xeee")) "QmGone" "0xeee"
    (by decide) (by decide) (by decide)

/-- C8: channel-B transport authentication: the validator accepts exactly the
hex HMAC-SHA256 of nonce ++ timestamp ++ raw body under the security token,
and a delivery missing any of the three headers is rejected 401 as an
authentication failure before the body is decoded — never a 400 decode
failure. -/
theorem quickNode_auth_contract :
    (∀ (hmacSha256Hex : String → String → String)
        (body nonce timestamp signature securityToken : String),
      validateQuickNodeSignature hmacSha256Hex body nonce timestamp signature
          securityToken = true
        ↔ signature = hmacSha256Hex securityToken (nonce ++ timestamp ++ body))
    ∧ (∀ (s : PinataStore) (hmacSha256Hex : String → String → String)
        (securityToken : String)
        (nonceHeader timestampHeader signatureHeader : Option String)
        (rawBody : String) (decodeAssetData : String → Option (String × String)),
      nonceHeader = none ∨ timestampHeader = none ∨ signatureHeader = none →
      quickNodePublishHandler s hmacSha256Hex securityToken nonceHeader
          timestampHeader signatureHeader rawBody decodeAssetData
        = (s, 401, none)) := by
  constructor
  · intro hmacSha256Hex body nonce timestamp signature securityToken
    simp [validateQuickNodeSignature]
  · intro s hmacSha256Hex securityToken nonceHeader timestampHeader
      signatureHeader rawBody decodeAssetData hmiss
    unfold quickNodePublishHandler
    rcases hmiss with h | h | h <;> subst h <;> simp

/-- Witness for C8: a delivery without the nonce header is rejected 401. -/
theorem quickNode_auth_contract_witness :
    quickNodePublishHandler [] hmacDemo "tok" none (some "17") (some "sig") "b"
        (fun _ => none)
      = ([], 401, none) :=
  quickNode_auth_contract.2 [] hmacDemo "tok" none (some "17") (some "sig") "b"
    (fun _ => none) (Or.inl rfl)

/-- C9: a successful update-draft replaces the looked-up record by a new one
created inside the same group, with the same (lowercase) owner — which is the
lowercased caller address — and status pending; updates never move a record
to a different group or change its owner. -/
theorem updateFile_preserves_group_owner
    (s : PinataStore) (now msgTimestamp : Int)
    (address nonce content cid freshId freshCid : String) (f : FileRecord)
    (hfind : getFileByCid s cid (toLowerCase address) = some f)
    (hname : f.name ≠ nonce)
    (hts : now - msgTimestamp ≤ 60) :
    ∃ newFile,
      updateFileHandler s true now msgTimestamp address nonce content cid
          freshId freshCid
        = (newFile :: deleteFile s f.id, 200, some newFile)
      ∧ newFile.group_id = f.group_id
      ∧ newFile.owner = f.owner
      ∧ newFile.owner = toLowerCase address
      ∧ newFile.status = "pending" := by
  have hts' : ¬ now - msgTimestamp > 60 := by omega
  have hown : f.owner = toLowerCase (toLowerCase address) :=
    ((getFileByCid_eq_some_iff s cid (toLowerCase address) f).mp hfind).2.2.1
  refine ⟨{ id := freshId
            cid := freshCid
            name := nonce
            group_id := f.group_id
            owner := toLowerCase address
            status := "pending" }, ?_, rfl, ?_, rfl, rfl⟩
  · unfold updateFileHandler
    simp [hts', hfind, hname]
  · rw [hown, toLowerCase_toLowerCase]

/-- Witness for C9 on the concrete pending store: the replacement record
keeps the group grp-7, the owner 0xabc and status pending. -/
theorem updateFile_preserves_group_owner_witness :
    ∃ newFile,
      updateFileHandler pendingStore true 1 0 "0xABC" "nonce-8" "body"
          "QmPending" "f9" "Qm9"
        = (newFile :: deleteFile pendingStore pendingRecord.id, 200, some newFile)
      ∧ newFile.group_id = pendingRecord.group_id
      ∧ newFile.owner = pendingRecord.owner
      ∧ newFile.owner = toLowerCase "0xABC"
      ∧ newFile.status = "pending" :=
  updateFile_preserves_group_owner pendingStore 1 0 "0xABC" "nonce-8" "body"
    "QmPending" "f9" "Qm9" pendingRecord (by decide) (by decide) (by decide)

/-- C10: the shared owner-scoped lookup yields a record exactly when the cid
is non-empty and the first record listed under it is owned (as keyvalue) by
the lowercased caller and not onchain; whenever it yields none — absent
record, foreign owner, onchain status or empty cid alike — update-draft,
delete-draft and fileByCid all reply 404 NotFound with nothing else, making
those cases indistinguishable to the caller. -/
theorem getFileByCid_owner_scoped_contract :
    (∀ (s : PinataStore) (cid a : String) (f : FileRecord),
      getFileByCid s cid a = some f
        ↔ cid ≠ "" ∧ (listByCid s cid).head? = some f
          ∧ f.owner = toLowerCase a ∧ f.status ≠ "onchain")
    ∧ (∀ (s : PinataStore) (now msgTimestamp : Int)
        (address nonce content cid freshId freshCid : String)
        (postCidToTokenId : String → Int),
      getFileByCid s cid (toLowerCase address) = none →
      now - msgTimestamp ≤ 60 →
      updateFileHandler s true now msgTimestamp address nonce content cid
          freshId freshCid
        = (s, 404, none)
      ∧ (postCidToTokenId cid = 0 →
          deleteFileHandler s postCidToTokenId true now msgTimestamp address
              nonce cid
            = (s, 404, none)))
    ∧ (∀ (s : PinataStore) (secret : String) (now : Int) (token : Jwt)
        (cid a : String),
      verifyJWT token secret now = some a →
      getFileByCid s cid (toLowerCase a) = none →
      fileByCidHandler s secret now (some token) cid = (404, none)) := by
  refine ⟨fun s cid a f => getFileByCid_eq_some_iff s cid a f, ?_, ?_⟩
  · intro s now msgTimestamp address nonce content cid freshId freshCid
      postCidToTokenId hnone hts
    have hts' : ¬ now - msgTimestamp > 60 := by omega
    constructor
    · unfold updateFileHandler
      simp [hts', hnone]
    · intro hchain
      unfold deleteFileHandler
      simp [hchain, hts', hnone]
  · intro s secret now token cid a hv hnone
    unfold fileByCidHandler
    simp [hv, hnone]

/-- Witness for C10: on the empty store a valid update request and a valid
token-backed read both come back 404. -/
theorem getFileByCid_owner_scoped_contract_witness :
    updateFileHandler [] true 1 0 "0xABC" "n" "b" "QmNone" "f1" "Qm1"
      = ([], 404, none)
    ∧ fileByCidHandler [] "k" 1 (some (generateJWT "0xABC" 0 "k")) "QmNone"
      = (404, none) :=
  ⟨(getFileByCid_owner_scoped_contract.2.1 [] 1 0 "0xABC" "n" "b" "QmNone"
      "f1" "Qm1" (fun _ => 0) (by decide) (by decide)).1,
    getFileByCid_owner_scoped_contract.2.2 [] "k" 1 (generateJWT "0xABC" 0 "k")
      "QmNone" "0xabc" (by decide) (by decide)⟩

end EdgeFunctions
